import Mathlib

/-!
Verification of the TibetanOCR pipeline (Lib/Modules.py, Lib/Utils.py,
run_easter_inference.py) against its natural-language specification.

The Python source is shallowly embedded: pure text/index manipulation is
translated to functions on `List Char` / `List Nat`; the stateful pipeline
orchestrator is translated to explicit state passing producing a list of
observable side-effect events together with an optional uncaught Python
exception; neural-network inference calls are abstracted as opaque
functions supplied as parameters (the models are external weight files).
-/

/- ================================================================
   Label codec: `LabelReader._convert_label` (Lib/Utils.py lines 49-53).

   Python:
     label = self._converter.toWylie(label)
     label = label.replace(" ", "§")
     label = label.replace("__", "_")

   The embedding takes as input the string produced by the external
   `pyewts.toWylie` conversion and models the two `str.replace` calls.
   `replace` of a single char is a character map; Python `replace("__","_")`
   rewrites non-overlapping occurrences scanning left to right.
   ================================================================ -/

/-- `label.replace(" ", "§")`: every space becomes the tseg placeholder. -/
def replaceSpace (l : List Char) : List Char :=
  l.map (fun c => if c = ' ' then '§' else c)

/-- `label.replace("__", "_")`: non-overlapping left-to-right rewriting of
each underscore pair to a single underscore. -/
def collapseUnderscore : List Char → List Char
  | '_' :: '_' :: t => '_' :: collapseUnderscore t
  | c :: t => c :: collapseUnderscore t
  | [] => []

/-- `LabelReader._convert_label` applied to the output of `toWylie`. -/
def convert_label (l : List Char) : List Char :=
  collapseUnderscore (replaceSpace l)

/-- `true` iff the list contains two consecutive word-separator
placeholders `'§'`. -/
def hasDoubleSep : List Char → Bool
  | c1 :: c2 :: t => (c1 = '§' && c2 = '§') || hasDoubleSep (c2 :: t)
  | _ => false

/- ================================================================
   Text vectorizer: `TextVectorizer.__call__` (Lib/Utils.py lines 76-88).

   Python:
     vec_label = [x for x in item]
     vec_label = [self.charset.index(x) for x in vec_label]
     if self.pad_sequences:
         length = tf.shape(vec_label)[0]
         pad_amount = self.sequence_length - length
         vec_label = tf.pad(vec_label, paddings=[[0, pad_amount]],
                            constant_values=self.padding_token)
     return vec_label

   `list.index` raises ValueError when the character is absent from the
   charset; `tf.pad` raises when `pad_amount` is negative.  The charset is
   a list of strings (single characters plus multi-character sentinels
   such as "[UNK]"), and a one-character Python string equals a charset
   entry exactly when that entry is the same single character.
   ================================================================ -/

/-- `charset.index(x)` for a single character `x`: the index of the first
charset entry equal to `x`, `none` modelling the `ValueError`. -/
def charsetIndex (charset : List String) (c : Char) : Option Nat :=
  charset.indexOf? c.toString

/-- `[self.charset.index(x) for x in vec_label]`: `none` as soon as one
character is absent from the charset. -/
def charsetIndices (charset : List String) : List Char → Option (List Nat)
  | [] => some []
  | c :: t =>
    match charsetIndex charset c, charsetIndices charset t with
    | some i, some r => some (i :: r)
    | _, _ => none

/-- `TextVectorizer.__call__` with its defaults (`sequence_length`,
`padding_token`, `pad_sequences`) made explicit; `Except`'s error case
models the uncaught Python exception. -/
def vectorizer_call (charset : List String) (sequence_length : Nat)
    (padding_token : Nat) (pad_sequences : Bool) (item : List Char) :
    Except String (List Nat) :=
  match charsetIndices charset item with
  | none => .error "ValueError: char is not in list"
  | some vec =>
    if pad_sequences then
      if vec.length ≤ sequence_length then
        .ok (vec ++ List.replicate (sequence_length - vec.length) padding_token)
      else
        .error "InvalidArgumentError: negative pad amount"
    else .ok vec

/- ================================================================
   Theorems for the label codec
   ================================================================ -/

theorem collapseUnderscore_count_of_ne (c : Char) (hc : c ≠ '_') :
    ∀ l : List Char, (collapseUnderscore l).count c = l.count c := by
  intro l
  induction l using collapseUnderscore.induct with
  | case1 t ih =>
    simp only [collapseUnderscore, List.count_cons, ih]
    simp [Ne.symm hc]
  | case2 c' t h ih =>
    cases t with
    | nil => simp [collapseUnderscore]
    | cons c2 t2 => simp only [collapseUnderscore, List.count_cons, ih]
  | case3 => simp [collapseUnderscore]

theorem replaceSpace_count_sep (l : List Char) :
    (replaceSpace l).count '§' = l.count ' ' + l.count '§' := by
  induction l with
  | nil => simp [replaceSpace]
  | cons c t ih =>
    simp only [replaceSpace, List.map_cons, List.count_cons] at *
    by_cases h : c = ' '
    · subst h; simp [ih]; omega
    · simp only [if_neg h, ih]
      by_cases h2 : c = '§'
      · simp [h, h2]; omega
      · simp [h, h2]

/-- C4 counterexample: the word-separator placeholder is not collapsed.
After `toWylie` returns two consecutive spaces, `_convert_label` turns
them into two consecutive `'§'` placeholders and leaves both in place,
whereas the claim demands exactly one placeholder at that position. -/
theorem convert_label_double_sep_not_collapsed :
    convert_label [' ', ' '] = ['§', '§'] ∧
      hasDoubleSep (convert_label [' ', ' ']) = true := by
  constructor <;> rfl

/-- C4 (amended): `_convert_label` replaces each space one-for-one by the
placeholder `'§'` and never collapses placeholder runs (the `'§'`-count of
the output is the space-count plus the pre-existing `'§'`-count of the
input); the duplicate-collapsing step applies to underscores instead,
rewriting each non-overlapping `"__"` pair to `"_"`. -/
theorem convert_label_amended :
    (∀ l : List Char,
        (convert_label l).count '§' = l.count ' ' + l.count '§') ∧
      (∀ l : List Char,
        convert_label ('_' :: '_' :: l) = '_' :: convert_label l) := by
  constructor
  · intro l
    rw [convert_label, collapseUnderscore_count_of_ne '§' (by decide),
      replaceSpace_count_sep]
  · intro l
    simp [convert_label, replaceSpace, collapseUnderscore]

/- ================================================================
   Theorems for the text vectorizer (C9)
   ================================================================ -/

theorem charsetIndices_length {charset : List String} :
    ∀ {item : List Char} {v : List Nat},
      charsetIndices charset item = some v → v.length = item.length := by
  intro item
  induction item with
  | nil => intro v h; simp [charsetIndices] at h; simp [← h]
  | cons c t ih =>
    intro v h
    simp only [charsetIndices] at h
    cases h1 : charsetIndex charset c with
    | none => rw [h1] at h; exact absurd h (by simp)
    | some i =>
      rw [h1] at h
      cases h2 : charsetIndices charset t with
      | none => rw [h2] at h; exact absurd h (by simp)
      | some r =>
        rw [h2] at h
        simp at h
        simp [← h, List.length_cons, ih h2]

/-- C9: with padding enabled (and the default sequence length 500 and
padding token 0 of the source), a text longer than `sequence_length`
makes `TextVectorizer.__call__` raise (the negative pad amount is
rejected) instead of returning a sequence; a text of length at most
`sequence_length` whose characters all occur in the charset yields its
charset-index sequence right-padded with the padding token to exactly
`sequence_length`. -/
theorem vectorizer_call_padding (charset : List String) (item : List Char) :
    (∀ v, charsetIndices charset item = some v → 500 < item.length →
      vectorizer_call charset 500 0 true item =
        .error "InvalidArgumentError: negative pad amount") ∧
    (∀ v, charsetIndices charset item = some v → item.length ≤ 500 →
      vectorizer_call charset 500 0 true item =
        .ok (v ++ List.replicate (500 - item.length) 0) ∧
      (v ++ List.replicate (500 - item.length) 0).length = 500) := by
  constructor
  · intro v hv hlong
    have hl := charsetIndices_length hv
    simp only [vectorizer_call, hv]
    rw [if_pos trivial, if_neg (by omega)]
  · intro v hv hshort
    have hl := charsetIndices_length hv
    simp only [vectorizer_call, hv]
    rw [if_pos trivial, if_pos (by omega)]
    refine ⟨by rw [hl], ?_⟩
    rw [List.length_append, List.length_replicate, hl]
    omega

set_option maxRecDepth 8000 in
/-- C9 witness: a concrete over-length text errors and a concrete short
text is padded to length 500. -/
theorem vectorizer_call_padding_witness :
    (vectorizer_call ["[UNK]", "a"] 500 0 true (List.replicate 501 'a') =
        .error "InvalidArgumentError: negative pad amount") ∧
    (vectorizer_call ["[UNK]", "a"] 500 0 true ['a', 'a'] =
        .ok ([1, 1] ++ List.replicate 498 0) ∧
      ([1, 1] ++ List.replicate (500 - ['a', 'a'].length) 0).length = 500) := by
  have h1 := (vectorizer_call_padding ["[UNK]", "a"] (List.replicate 501 'a')).1
  have h2 := (vectorizer_call_padding ["[UNK]", "a"] ['a', 'a']).2
  constructor
  · exact h1 (List.replicate 501 1) (by decide) (by decide)
  · have := h2 [1, 1] (by decide) (by decide)
    exact ⟨this.1, this.2⟩

/- ================================================================
   IIIF downloader: `IIIFDownloader.download` (Lib/Utils.py lines 102-132)
   and its CLI call site (run_easter_inference.py line 31).

   Python:
     def download(self, manifest_link: str, file_limit: int = 50):
         ...
         max_images = len(seq[0]["canvases"])
         if max_images > 0:
             if file_limit == 0 or file_limit > max_images or file_limit < 0:
                 file_limit = max_images
             for idx in tqdm(range(file_limit)):
                 ... download canvas idx unless the file already exists ...

   The CLI entry point calls `iif_downloader.download(args.iiif_manifest)`
   with no second argument, so `file_limit` takes its default value 50.
   The embedding computes the number of loop iterations, an upper bound
   on the number of images downloaded.
   ================================================================ -/

/-- The `file_limit` value effective inside the download loop after the
rebinding `if file_limit == 0 or file_limit > max_images or file_limit < 0`. -/
def effectiveFileLimit (file_limit max_images : Int) : Int :=
  if file_limit = 0 ∨ file_limit > max_images ∨ file_limit < 0 then
    max_images
  else file_limit

/-- Number of iterations of the download loop of
`IIIFDownloader.download` (the loop is guarded by `max_images > 0`). -/
def downloadIterations (file_limit max_images : Int) : Int :=
  if 0 < max_images then effectiveFileLimit file_limit max_images else 0

/-- The download-loop iteration count at the CLI call site, which passes
no `file_limit`, so the default 50 applies. -/
def cliDownloadIterations (max_images : Int) : Int :=
  downloadIterations 50 max_images

/-- C10: calling `IIIFDownloader.download` without an explicit
`file_limit` — as the CLI entry point does — iterates the download loop
at most 50 times regardless of how many canvases the manifest lists
(and exactly 50 times when it lists more than 50), while the no-limit
behaviour (all `max_images` canvases) requires the caller to pass 0 or
a negative value explicitly. -/
theorem cli_download_capped_at_50 (max_images file_limit : Int) :
    cliDownloadIterations max_images ≤ 50 ∧
    (50 < max_images → cliDownloadIterations max_images = 50) ∧
    (0 < max_images → file_limit = 0 ∨ file_limit < 0 →
      downloadIterations file_limit max_images = max_images) := by
  refine ⟨?_, ?_, ?_⟩
  · unfold cliDownloadIterations downloadIterations effectiveFileLimit
    split
    · split
      · omega
      · omega
    · omega
  · intro h
    unfold cliDownloadIterations downloadIterations effectiveFileLimit
    rw [if_pos (by omega), if_neg (by omega)]
  · intro hpos hlim
    unfold downloadIterations effectiveFileLimit
    rw [if_pos hpos, if_pos (by omega)]

/-- C10 witness: a manifest of 300 canvases is capped at 50 iterations
through the CLI path, and an explicit `file_limit = 0` lifts the cap. -/
theorem cli_download_capped_at_50_witness :
    cliDownloadIterations 300 ≤ 50 ∧ cliDownloadIterations 300 = 50 ∧
      downloadIterations 0 300 = 300 := by
  refine ⟨(cli_download_capped_at_50 300 0).1,
    (cli_download_capped_at_50 300 0).2.1 (by decide),
    (cli_download_capped_at_50 300 0).2.2 (by decide) (Or.inl rfl)⟩

/- ================================================================
   Batch assembler: `OCRDataLoader` (Lib/Modules.py lines 184-231).

   Python:
     def __len__(self):
         return int(np.ceil(len(self._images) / float(self._batch_size)))

     def __getitem__(self, idx):
         image_batch = self._images[idx * B : (idx + 1) * B]
         label_batch = self._labels[idx * B : (idx + 1) * B]
         gtTexts = np.ones([B, 500]); input_length = np.ones((B, 1)) * 500
         label_length = np.zeros((B, 1)); imgs = np.ones([B, 2000, 80])
         for idx in range(0, len(image_batch)):
             imgs[idx] = self._image_reader(image_batch[idx])
             lbl = self._label_reader(label_batch[idx])
             gtTexts[idx] = self._vectorizer(lbl)
             label_length[idx] = len(lbl)
             input_length[idx] = 500

   Labels are modelled by their `LabelReader` outputs (lists of chars);
   image reads are abstracted away (they do not affect the label tensor
   or the length columns).  A failing vectorization (missing charset
   char, over-length label) or an out-of-range `label_batch[idx]` access
   aborts `__getitem__` with an exception, modelled by `Except.error`.
   ================================================================ -/

structure OCRDataLoaderM where
  images : List Nat
  labels : List (List Char)
  batch_size : Nat
  charset : List String

/-- `OCRDataLoader.__len__`: `int(np.ceil(N / float(B)))`. -/
def loaderLen (dl : OCRDataLoaderM) : Nat :=
  (⌈(dl.images.length : ℚ) / (dl.batch_size : ℚ)⌉).toNat

/-- One row of the `gtTexts` label tensor: the padded vectorized label
for `i < len(image_batch)` and the `np.ones` initializer row otherwise. -/
def gtTextRow (charset : List String) (imageCount : Nat)
    (labelBatch : List (List Char)) (i : Nat) : Except String (List Nat) :=
  if i < imageCount then
    match labelBatch[i]? with
    | some lbl => vectorizer_call charset 500 0 true lbl
    | none => .error "IndexError: list index out of range"
  else .ok (List.replicate 500 1)

/-- The rows of the `gtTexts` label tensor, one per `i in range(B)`. -/
def gtTextRows (charset : List String) (imageCount : Nat)
    (labelBatch : List (List Char)) : List Nat → Except String (List (List Nat))
  | [] => .ok []
  | i :: rest =>
    match gtTextRow charset imageCount labelBatch i,
        gtTextRows charset imageCount labelBatch rest with
    | .ok row, .ok rows => .ok (row :: rows)
    | .error e, _ => .error e
    | _, .error e => .error e

/-- The `label_length` column, one entry per `i in range(B)`: the true
(unpadded) length of sample `i`'s label for `i < len(image_batch)` and
the `np.zeros` initializer value otherwise. -/
def labelLengthColumn (imageCount : Nat) (labelBatch : List (List Char))
    (ixs : List Nat) : List Nat :=
  ixs.map (fun i =>
    if i < imageCount then (labelBatch[i]?.map List.length).getD 0 else 0)

/-- `OCRDataLoader.__getitem__`, restricted to the observables the claim
is about: the label tensor rows and the `label_length` column. -/
def getItem (dl : OCRDataLoaderM) (idx : Nat) :
    Except String (List (List Nat) × List Nat) :=
  let imageBatch := (dl.images.drop (idx * dl.batch_size)).take dl.batch_size
  let labelBatch := (dl.labels.drop (idx * dl.batch_size)).take dl.batch_size
  match gtTextRows dl.charset imageBatch.length labelBatch
      (List.range dl.batch_size) with
  | .error e => .error e
  | .ok rows =>
    .ok (rows, labelLengthColumn imageBatch.length labelBatch
      (List.range dl.batch_size))

theorem gtTextRows_length {charset : List String} {imageCount : Nat}
    {labelBatch : List (List Char)} :
    ∀ {ixs : List Nat} {rows : List (List Nat)},
      gtTextRows charset imageCount labelBatch ixs = .ok rows →
      rows.length = ixs.length := by
  intro ixs
  induction ixs with
  | nil =>
    intro rows h
    simp only [gtTextRows] at h
    cases h
    rfl
  | cons i rest ih =>
    intro rows h
    simp only [gtTextRows] at h
    cases hrow : gtTextRow charset imageCount labelBatch i with
    | error e => rw [hrow] at h; exact absurd h (by simp)
    | ok row =>
      rw [hrow] at h
      cases hrest : gtTextRows charset imageCount labelBatch rest with
      | error e => rw [hrest] at h; exact absurd h (by simp)
      | ok rows' =>
        rw [hrest] at h
        simp only at h
        cases h
        simp [List.length_cons, ih hrest]

theorem ceil_div_nat_eq (N B : Nat) (hB : 0 < B) :
    (⌈(N : ℚ) / (B : ℚ)⌉).toNat = (N + B - 1) / B := by
  have hBQ : (0 : ℚ) < (B : ℚ) := by exact_mod_cast hB
  set q := (N + B - 1) / B with hq
  obtain ⟨e, he, hNe⟩ : ∃ e, e < B ∧ N + B - 1 = q * B + e :=
    ⟨(N + B - 1) % B, Nat.mod_lt _ hB, (Nat.div_add_mod' (N + B - 1) B).symm⟩
  have h1 : N ≤ q * B := by omega
  have h2 : q * B < N + B := by omega
  have hceil : ⌈(N : ℚ) / (B : ℚ)⌉ = (q : Int) := by
    rw [Int.ceil_eq_iff]
    constructor
    · rw [lt_div_iff₀ hBQ]
      have hc : ((q * B : ℕ) : ℚ) < ((N + B : ℕ) : ℚ) := by exact_mod_cast h2
      push_cast at hc ⊢
      linarith
    · rw [div_le_iff₀ hBQ]
      have hc : ((N : ℕ) : ℚ) ≤ ((q * B : ℕ) : ℚ) := by exact_mod_cast h1
      push_cast at hc ⊢
      linarith
  rw [hceil]
  simp

/-- C7: for `N` samples and batch size `B`, `OCRDataLoader.__len__` is
`ceil(N / B)` (characterized as `(N + B - 1) / B`); every batch
`__getitem__` returns has a label tensor with exactly `B` rows even when
fewer than `B` samples remain; and for each `i` below the sample count
of the batch, `label_length[i]` is the true unpadded length of sample
`i`'s label. -/
theorem loader_len_and_label_shape (dl : OCRDataLoaderM) (idx : Nat)
    (hB : 0 < dl.batch_size)
    (hlen : dl.images.length = dl.labels.length) :
    loaderLen dl = (dl.images.length + dl.batch_size - 1) / dl.batch_size ∧
    ∀ rows lens, getItem dl idx = .ok (rows, lens) →
      rows.length = dl.batch_size ∧
      ∀ (i : Nat) (lbl : List Char),
        ((dl.labels.drop (idx * dl.batch_size)).take dl.batch_size)[i]? =
          some lbl →
        lens[i]? = some lbl.length := by
  constructor
  · exact ceil_div_nat_eq _ _ hB
  · intro rows lens h
    simp only [getItem] at h
    cases hrows : gtTextRows dl.charset
        ((dl.images.drop (idx * dl.batch_size)).take dl.batch_size).length
        ((dl.labels.drop (idx * dl.batch_size)).take dl.batch_size)
        (List.range dl.batch_size) with
    | error e => rw [hrows] at h; exact absurd h (by simp)
    | ok rows' =>
      rw [hrows] at h
      simp only [Except.ok.injEq, Prod.mk.injEq] at h
      obtain ⟨hr, hl⟩ := h
      subst hr hl
      refine ⟨by rw [gtTextRows_length hrows, List.length_range], ?_⟩
      intro i lbl hli
      have hiB : i < ((dl.labels.drop (idx * dl.batch_size)).take
          dl.batch_size).length := by
        rcases List.getElem?_eq_some.mp hli with ⟨hw, _⟩
        exact hw
      have hcount : ((dl.images.drop (idx * dl.batch_size)).take
            dl.batch_size).length =
          ((dl.labels.drop (idx * dl.batch_size)).take
            dl.batch_size).length := by
        simp [List.length_take, List.length_drop, hlen]
      have hiB' : i < dl.batch_size := by
        have := List.length_take dl.batch_size
          (dl.labels.drop (idx * dl.batch_size))
        omega
      have himg : i < ((dl.images.drop (idx * dl.batch_size)).take
          dl.batch_size).length := by rw [hcount]; exact hiB
      simp only [labelLengthColumn, List.getElem?_map,
        List.getElem?_range hiB', Option.map_some']
      rw [if_pos himg, hli]
      rfl

/-- C7 witness: two samples with batch size 4 give `length() = 1`, a
4-row label tensor, and true label lengths 2 and 3 in `label_length`. -/
theorem loader_len_and_label_shape_witness :
    (loaderLen ⟨[10, 11], [['k', 'a'], ['k', 'h', 'a']], 4, ["[UNK]", "a", "h", "k"]⟩ = 1) ∧
    ∀ rows lens,
      getItem ⟨[10, 11], [['k', 'a'], ['k', 'h', 'a']], 4, ["[UNK]", "a", "h", "k"]⟩ 0 =
        .ok (rows, lens) →
      rows.length = 4 ∧ lens[0]? = some 2 ∧ lens[1]? = some 3 := by
  have h := loader_len_and_label_shape
    ⟨[10, 11], [['k', 'a'], ['k', 'h', 'a']], 4, ["[UNK]", "a", "h", "k"]⟩ 0
    (by decide) (by decide)
  refine ⟨by rw [h.1]; rfl, ?_⟩
  intro rows lens hok
  obtain ⟨hrows, hlens⟩ := h.2 rows lens hok
  exact ⟨hrows, hlens 0 ['k', 'a'] (by decide), hlens 1 ['k', 'h', 'a'] (by decide)⟩

/- ================================================================
   Dataset split: `OCRDataset._create_sets` (Lib/Modules.py lines 95-120).

   Python:
     max_batches = (len(images) - (len(images) % self._batch_size)) \
         // self._batch_size
     train_batches = int(max_batches * self._train_test_split)
     val_batches = (max_batches - train_batches) // 2
     train_idx = [int(x) for x in range(train_batches * batch_size)]
     val_idx = [... range(tb * B, tb * B + vb * B)]
     test_idx = [... range(tb * B + vb * B, tb * B + vb * B * 2)]

   Python `%` and `//` on ints are floor-mod and floor-division
   (`Int.fmod` / `Int.fdiv`); `int()` of a float truncates toward zero;
   the split ratio is modelled as a rational.
   ================================================================ -/

/-- Python `int(x)`: truncation toward zero. -/
def pyInt (q : ℚ) : Int := if 0 ≤ q then ⌊q⌋ else ⌈q⌉

/-- Python `range(a, b)` as the list of integers `a ≤ x < b`. -/
def pyRange (a b : Int) : List Int :=
  (List.range (b - a).toNat).map (fun (i : Nat) => a + (i : Int))

/-- `OCRDataset._create_sets`: the three index lists
`(train_idx, val_idx, test_idx)` as functions of the sample count `N`,
the batch size `B` and the train/test split ratio `r`. -/
def create_sets (N B : Int) (r : ℚ) : List Int × List Int × List Int :=
  let max_batches := (N - Int.fmod N B).fdiv B
  let train_batches := pyInt ((max_batches : ℚ) * r)
  let val_batches := (max_batches - train_batches).fdiv 2
  (pyRange 0 (train_batches * B),
   pyRange (train_batches * B) (train_batches * B + val_batches * B),
   pyRange (train_batches * B + val_batches * B)
     (train_batches * B + val_batches * B * 2))

theorem mem_pyRange {a b x : Int} : x ∈ pyRange a b ↔ a ≤ x ∧ x < b := by
  unfold pyRange
  rw [List.mem_map]
  constructor
  · rintro ⟨i, hi, rfl⟩
    rw [List.mem_range] at hi
    have := Int.lt_toNat.mp hi
    omega
  · rintro ⟨h1, h2⟩
    refine ⟨(x - a).toNat, List.mem_range.mpr ?_, ?_⟩
    · rw [Int.toNat_lt_toNat (by omega)]
      omega
    · rw [Int.toNat_of_nonneg (by omega)]
      omega

theorem length_pyRange (a b : Int) : (pyRange a b).length = (b - a).toNat := by
  unfold pyRange
  rw [List.length_map, List.length_range]

/-- C6: for every sample count `N ≥ 0`, batch size `B > 0` and split
ratio `0 ≤ r ≤ 1`, `_create_sets` returns three pairwise disjoint
contiguous integer ranges over the shuffled order, each of length a
whole multiple of `B`, whose combined length is at most `N - (N mod B)`. -/
theorem create_sets_split (N B : Int) (r : ℚ) (hN : 0 ≤ N) (hB : 0 < B)
    (hr0 : 0 ≤ r) (hr1 : r ≤ 1) :
    (∀ x, ¬(x ∈ (create_sets N B r).1 ∧ x ∈ (create_sets N B r).2.1)) ∧
    (∀ x, ¬(x ∈ (create_sets N B r).1 ∧ x ∈ (create_sets N B r).2.2)) ∧
    (∀ x, ¬(x ∈ (create_sets N B r).2.1 ∧ x ∈ (create_sets N B r).2.2)) ∧
    (B ∣ ((create_sets N B r).1.length : Int) ∧
      B ∣ ((create_sets N B r).2.1.length : Int) ∧
      B ∣ ((create_sets N B r).2.2.length : Int)) ∧
    (((create_sets N B r).1.length : Int) +
        ((create_sets N B r).2.1.length : Int) +
        ((create_sets N B r).2.2.length : Int) ≤ N - Int.fmod N B) ∧
    (∃ b1 a2 b2 a3 b3 : Int, 0 ≤ b1 ∧ b1 ≤ a2 ∧ a2 ≤ b2 ∧ b2 ≤ a3 ∧ a3 ≤ b3 ∧
      (create_sets N B r).1 = pyRange 0 b1 ∧
      (create_sets N B r).2.1 = pyRange a2 b2 ∧
      (create_sets N B r).2.2 = pyRange a3 b3) := by
  have hBne : B ≠ 0 := by omega
  set mb := (N - Int.fmod N B).fdiv B with hmb
  set tb := pyInt ((mb : ℚ) * r) with htb
  set vb := (mb - tb).fdiv 2 with hvb
  have hcs : create_sets N B r =
      (pyRange 0 (tb * B), pyRange (tb * B) (tb * B + vb * B),
        pyRange (tb * B + vb * B) (tb * B + vb * B * 2)) := rfl
  have hfdm := Int.fdiv_add_fmod N B
  have hmbq : mb = N.fdiv B := by
    have h1 : N - Int.fmod N B = B * N.fdiv B := by omega
    rw [hmb, h1, Int.mul_fdiv_cancel_left _ hBne]
  have hmb0 : 0 ≤ mb := by
    rw [hmbq]
    exact Int.fdiv_nonneg hN (by omega)
  have hmbr0 : (0 : ℚ) ≤ (mb : ℚ) * r :=
    mul_nonneg (by exact_mod_cast hmb0) hr0
  have htbfloor : tb = ⌊(mb : ℚ) * r⌋ := by rw [htb, pyInt, if_pos hmbr0]
  have htb0 : 0 ≤ tb := by
    rw [htbfloor]
    exact Int.floor_nonneg.mpr hmbr0
  have htbmb : tb ≤ mb := by
    have hcast : (0 : ℚ) ≤ (mb : ℚ) := by exact_mod_cast hmb0
    have hle : (mb : ℚ) * r ≤ ((mb : Int) : ℚ) := by
      nlinarith [mul_nonneg hcast (sub_nonneg.mpr hr1)]
    rw [htbfloor]
    calc ⌊(mb : ℚ) * r⌋ ≤ ⌊((mb : Int) : ℚ)⌋ := Int.floor_le_floor hle
      _ = mb := Int.floor_intCast mb
  have hfdm2 := Int.fdiv_add_fmod (mb - tb) 2
  have hfm2 : 0 ≤ (mb - tb).fmod 2 := Int.fmod_nonneg (by omega) (by omega)
  have hfm2lt : (mb - tb).fmod 2 < 2 := Int.fmod_lt_of_pos _ (by omega)
  have hvb0 : 0 ≤ vb := by omega
  have h2vb : 2 * vb ≤ mb - tb := by omega
  have htbB : 0 ≤ tb * B := mul_nonneg htb0 hB.le
  have hvbB : 0 ≤ vb * B := mul_nonneg hvb0 hB.le
  have hsum : tb * B + vb * B + vb * B ≤ mb * B := by
    have h1 : (tb + 2 * vb) * B ≤ mb * B :=
      mul_le_mul_of_nonneg_right (by omega) hB.le
    have h2 : (tb + 2 * vb) * B = tb * B + vb * B + vb * B := by ring
    omega
  have hmbB : mb * B = N - Int.fmod N B := by
    rw [hmbq, mul_comm]
    omega
  refine ⟨?_, ?_, ?_, ⟨?_, ?_, ?_⟩, ?_, ?_⟩
  · rintro x ⟨h1, h2⟩
    simp only [hcs] at h1 h2
    rw [mem_pyRange] at h1 h2
    omega
  · rintro x ⟨h1, h2⟩
    simp only [hcs] at h1 h2
    rw [mem_pyRange] at h1 h2
    omega
  · rintro x ⟨h1, h2⟩
    simp only [hcs] at h1 h2
    rw [mem_pyRange] at h1 h2
    omega
  · simp only [hcs, length_pyRange]
    rw [Int.toNat_of_nonneg (by omega)]
    exact ⟨tb, by ring⟩
  · simp only [hcs, length_pyRange]
    rw [Int.toNat_of_nonneg (by omega)]
    exact ⟨vb, by ring⟩
  · simp only [hcs, length_pyRange]
    rw [Int.toNat_of_nonneg (by omega)]
    exact ⟨vb, by ring⟩
  · simp only [hcs, length_pyRange]
    rw [Int.toNat_of_nonneg (by omega), Int.toNat_of_nonneg (by omega),
      Int.toNat_of_nonneg (by omega)]
    omega
  · refine ⟨tb * B, tb * B, tb * B + vb * B, tb * B + vb * B,
      tb * B + vb * B * 2, htbB, le_refl _, by omega, le_refl _, by omega,
      ?_, ?_, ?_⟩
    · rw [hcs]
    · rw [hcs]
    · rw [hcs]

/-- C6 witness: `N = 10`, `B = 3`, `r = 4/5` instantiate the split
theorem; the sets are `range(0,6)`, `range(6,6)`, `range(6,6)`. -/
theorem create_sets_split_witness :
    (∀ x, ¬(x ∈ (create_sets 10 3 (4/5)).1 ∧ x ∈ (create_sets 10 3 (4/5)).2.1)) ∧
    ((3 : Int) ∣ ((create_sets 10 3 (4/5)).1.length : Int)) ∧
    (((create_sets 10 3 (4/5)).1.length : Int) +
        ((create_sets 10 3 (4/5)).2.1.length : Int) +
        ((create_sets 10 3 (4/5)).2.2.length : Int) ≤ 10 - Int.fmod 10 3) := by
  have h := create_sets_split 10 3 (4/5) (by norm_num) (by norm_num)
    (by norm_num) (by norm_num)
  exact ⟨h.1, h.2.2.2.1.1, h.2.2.2.2.1⟩

/- ================================================================
   Line segmenter contour extraction:
   `LineDetector._get_page_contours` (Lib/Modules.py lines 333-354).

   Python:
     contours = [x for x in contours if cv2.contourArea(x) > 2000]
     contour_dict = {}
     for contour in contours:
         x, y, w, h = cv2.boundingRect(contour)
         center_point = [int(x + w / 2), int(y + h / 2)]
         contour_dict[center_point[1]] = contour
     sorted_contours = {key: contour_dict[key] for key in sorted(contour_dict)}
     sorted_contours = [v for v in sorted_contours.values()]

   A contour is abstracted by its pixel area and its bounding rectangle;
   `int(y + h / 2)` on non-negative ints is `y + h / 2` in Nat division.
   A Python dict assignment replaces the value of an existing key in
   place and appends fresh keys in insertion order; `sorted` on a dict
   iterates its (unique) keys in ascending order.
   ================================================================ -/

structure Contour where
  area : Nat
  x : Nat
  y : Nat
  w : Nat
  h : Nat
deriving DecidableEq, Repr

/-- `center_point[1] = int(y + h / 2)`. -/
def Contour.centerY (c : Contour) : Nat := c.y + c.h / 2

/-- `[x for x in contours if cv2.contourArea(x) > 2000]`. -/
def filterArea (cs : List Contour) : List Contour :=
  cs.filter (fun c => 2000 < c.area)

/-- `contour_dict[k] = v`: replace the value of an existing key in
place, otherwise append. -/
def dictInsert (d : List (Nat × Contour)) (k : Nat) (v : Contour) :
    List (Nat × Contour) :=
  if d.any (fun p => p.1 = k) then
    d.map (fun p => if p.1 = k then (k, v) else p)
  else d ++ [(k, v)]

/-- The `for contour in contours: contour_dict[center] = contour` loop. -/
def buildContourDict (cs : List Contour) : List (Nat × Contour) :=
  cs.foldl (fun d c => dictInsert d c.centerY c) []

/-- `_get_page_contours` restricted to its contour-list result: the
dict's values listed by ascending key (the dict's keys are unique, so
ascending-key order is uniquely determined and any correct sort models
Python's `sorted`). -/
def get_page_contours (cs : List Contour) : List Contour :=
  (List.insertionSort (fun p q : Nat × Contour => p.1 ≤ q.1)
    (buildContourDict (filterArea cs))).map Prod.snd

theorem dictInsert_fresh (d : List (Nat × Contour)) (k : Nat) (v : Contour)
    (h : d.any (fun p => p.1 = k) = false) :
    dictInsert d k v = d ++ [(k, v)] := by
  simp [dictInsert, h]

theorem foldl_dictInsert_of_distinct :
    ∀ (cs : List Contour) (d : List (Nat × Contour)),
      (∀ p ∈ d, ∀ c ∈ cs, p.1 ≠ c.centerY) →
      cs.Pairwise (fun a b => a.centerY ≠ b.centerY) →
      cs.foldl (fun d c => dictInsert d c.centerY c) d =
        d ++ cs.map (fun c => (c.centerY, c)) := by
  intro cs
  induction cs with
  | nil => intro d _ _; simp
  | cons c t ih =>
    intro d hd hp
    have hfresh : d.any (fun p => p.1 = c.centerY) = false := by
      rw [List.any_eq_false]
      intro p hpd
      simp only [decide_eq_true_eq]
      exact hd p hpd c (List.mem_cons_self c t)
    have hstep : List.foldl (fun d c => dictInsert d c.centerY c) d (c :: t) =
        List.foldl (fun d c => dictInsert d c.centerY c)
          (d ++ [(c.centerY, c)]) t := by
      rw [List.foldl_cons, dictInsert_fresh d c.centerY c hfresh]
    rw [hstep, ih (d ++ [(c.centerY, c)]) ?_ (List.Pairwise.sublist
      (List.sublist_cons_self c t) hp)]
    · simp
    · intro p hpd c' hc'
      rcases List.mem_append.mp hpd with hin | hin
      · exact hd p hin c' (List.mem_cons_of_mem c hc')
      · simp only [List.mem_singleton] at hin
        subst hin
        exact (List.pairwise_cons.mp hp).1 c' hc'

/-- C3 counterexample: two distinct contours, both of area strictly
above 2000 but with equal vertical centers, collide in the
center-keyed dict: the first survives the area filter yet is absent
from `_get_page_contours`' result, which keeps only the later one —
refuting "returns all of them". -/
theorem get_page_contours_drops_tied_contour :
    (⟨2500, 0, 10, 4, 4⟩ : Contour) ∈
        filterArea [⟨2500, 0, 10, 4, 4⟩, ⟨2500, 50, 10, 8, 4⟩] ∧
      get_page_contours [⟨2500, 0, 10, 4, 4⟩, ⟨2500, 50, 10, 8, 4⟩] =
        [⟨2500, 50, 10, 8, 4⟩] := by
  constructor
  · decide
  · decide

/-- C3 (amended): `_get_page_contours` returns the detected contours of
pixel area strictly greater than 2000 after deduplicating by vertical
center (for each center value only the last such contour is kept),
ordered by ascending vertical center of their bounding boxes; in
particular, when the surviving contours' vertical centers are pairwise
distinct it returns all of them, as a permutation of the area-filtered
list sorted by ascending vertical center. -/
theorem get_page_contours_amended (cs : List Contour)
    (hdist : (filterArea cs).Pairwise (fun a b => a.centerY ≠ b.centerY)) :
    (get_page_contours cs).Perm (filterArea cs) ∧
      (get_page_contours cs).Pairwise (fun a b => a.centerY ≤ b.centerY) := by
  haveI htot : IsTotal (Nat × Contour) (fun p q => p.1 ≤ q.1) :=
    ⟨fun a b => Nat.le_total a.1 b.1⟩
  haveI htrans : IsTrans (Nat × Contour) (fun p q => p.1 ≤ q.1) :=
    ⟨fun a b c hab hbc => Nat.le_trans hab hbc⟩
  have hdict : buildContourDict (filterArea cs) =
      (filterArea cs).map (fun c => (c.centerY, c)) := by
    rw [buildContourDict, foldl_dictInsert_of_distinct (filterArea cs) []
      (by intro p hp; exact absurd hp (List.not_mem_nil p)) hdist]
    simp
  have hperm : (List.insertionSort (fun p q : Nat × Contour => p.1 ≤ q.1)
      (buildContourDict (filterArea cs))).Perm
      ((filterArea cs).map (fun c => (c.centerY, c))) := by
    rw [hdict]
    exact List.perm_insertionSort _ _
  constructor
  · have h1 : (get_page_contours cs).Perm
        (((filterArea cs).map (fun c => (c.centerY, c))).map Prod.snd) :=
      hperm.map Prod.snd
    rw [List.map_map] at h1
    have hid : (Prod.snd ∘ fun c : Contour => (c.centerY, c)) = id := rfl
    rw [hid, List.map_id] at h1
    exact h1
  · have hsorted := List.sorted_insertionSort
      (fun p q : Nat × Contour => p.1 ≤ q.1)
      (buildContourDict (filterArea cs))
    have hkey : ∀ p ∈ List.insertionSort (fun p q : Nat × Contour => p.1 ≤ q.1)
        (buildContourDict (filterArea cs)), p.1 = p.2.centerY := by
      intro p hp
      have hmem := (List.perm_insertionSort
        (fun p q : Nat × Contour => p.1 ≤ q.1)
        (buildContourDict (filterArea cs))).mem_iff.mp hp
      rw [hdict] at hmem
      rcases List.mem_map.mp hmem with ⟨c, _, rfl⟩
      rfl
    rw [get_page_contours, List.pairwise_map]
    refine List.Pairwise.imp_of_mem ?_ hsorted
    intro p q hpmem hqmem hle
    rw [← hkey p hpmem, ← hkey q hqmem]
    exact hle

/-- C3 witness: surviving contours with vertical centers 300, 50 and
175 come back as a permutation of the filtered list sorted ascending —
concretely in the order [50, 175, 300]. -/
theorem get_page_contours_amended_witness :
    ((get_page_contours [⟨3000, 0, 298, 10, 4⟩, ⟨3000, 0, 48, 10, 4⟩,
        ⟨3000, 0, 173, 10, 4⟩]).Perm
      (filterArea [⟨3000, 0, 298, 10, 4⟩, ⟨3000, 0, 48, 10, 4⟩,
        ⟨3000, 0, 173, 10, 4⟩]) ∧
      (get_page_contours [⟨3000, 0, 298, 10, 4⟩, ⟨3000, 0, 48, 10, 4⟩,
        ⟨3000, 0, 173, 10, 4⟩]).Pairwise
        (fun a b => a.centerY ≤ b.centerY)) ∧
    get_page_contours [⟨3000, 0, 298, 10, 4⟩, ⟨3000, 0, 48, 10, 4⟩,
        ⟨3000, 0, 173, 10, 4⟩] =
      [⟨3000, 0, 48, 10, 4⟩, ⟨3000, 0, 173, 10, 4⟩, ⟨3000, 0, 298, 10, 4⟩] :=
  ⟨get_page_contours_amended _ (by decide), by decide⟩

/- ================================================================
   Inference pipeline: `LineDetector.run`, `OCRInference.run`,
   `OCRInference.run_batched`, `InferencePipeline.__init__/_init/run`
   (Lib/Modules.py lines 286-602).

   The two neural networks are opaque weight files; they are abstracted
   by opaque per-line functions: `seg` maps a page image (a handle) to
   the segmentation result, `decode`/`probs` map a line image to the
   decoded text and the raw prediction array.  `OCRInference.run`
   prepares a single image, predicts and decodes it, returning the
   *tuple* `(decoded_text, prediction)`; `run_batched` prepares each
   image, runs one batched forward pass and decodes each output,
   returning a list of plain strings.

   `InferencePipeline.run` is modelled as a state transformer producing
   the list of observable side effects, in order: control-image writes
   and exporter invocations (each exporter receives the page's list of
   predicted text values).  An uncaught Python exception aborts the
   page loop and is modelled by the `Option String` component; events
   already emitted before the exception are kept.

   Fidelity notes, traced from the source:
   - `LineDetector._init` catches the model-load exception and records
     `can_run = False`; `LineDetector.run` then only logs an error and
     falls through, returning `None`.
   - `OCRInference.__init__` does not catch: a failing weight load
     raises out of `InferencePipeline._init`, so construction fails.
   - `InferencePipeline._init` sets `self._can_run = True`
     unconditionally and `run` never consults it.
   - In `run`, the empty-directory check precedes exporter resolution;
     exporters are *appended* to the persistent `self.exporters` list;
     the zero-lines `continue` precedes the control-image write; in
     "sequential" mode the code binds `text = self._ocr_model.run(line)`
     — the (text, prediction) tuple — and either appends it directly or
     passes it to `pyewts.toUnicode`, which only accepts a string.
   ================================================================ -/

structure DetectOut where
  lines : List Nat
  mask : Nat
  bbox : String
  boxes : List Nat

structure LineDetectorM where
  can_run : Bool
  seg : Nat → DetectOut

/-- `LineDetector.run`: `none` models the `return None` fall-through
when the detector is not properly initialized. -/
def LineDetectorM.run (d : LineDetectorM) (img : Nat) : Option DetectOut :=
  if d.can_run then some (d.seg img) else none

structure OCRInferenceM where
  decode : Nat → String
  probs : Nat → Nat

/-- `OCRInference.run`: returns the tuple `(decoded_text, prediction)`. -/
def OCRInferenceM.run (m : OCRInferenceM) (img : Nat) : String × Nat :=
  (m.decode img, m.probs img)

/-- `OCRInference.run_batched`: one batched forward pass, each output
decoded independently — a list of plain strings. -/
def OCRInferenceM.run_batched (m : OCRInferenceM) (imgs : List Nat) :
    List String :=
  imgs.map m.decode

/-- A value appended to `predicted_text_lines`: either a plain decoded
string (batched path) or the `(text, prediction)` tuple returned by
`OCRInference.run` (sequential path). -/
inductive PredElem where
  | txt : String → PredElem
  | pair : String → Nat → PredElem
deriving DecidableEq, Repr

inductive ExporterKind where
  | xml
  | text
  | prodigy
deriving DecidableEq, Repr

/-- Observable side effects of one `InferencePipeline.run` call. -/
inductive Ev where
  | controlImage : String → Ev
  | exporterCall : ExporterKind → String → List PredElem → Ev
deriving DecidableEq, Repr

structure PipelineState where
  line_detector : Option LineDetectorM
  ocr_model : Option OCRInferenceM
  can_run : Bool
  exporters : List ExporterKind

/-- `InferencePipeline.__init__` + `_init`: a `LineDetector` is
constructed whenever the path is non-empty (recording load success in
its `can_run`); a failing OCR-weight load raises out of construction;
`_can_run` is set `True` unconditionally; `exporters` starts empty. -/
def pipelineInit (line_model_path : String) (line_load_ok : Bool)
    (seg : Nat → DetectOut) (ocr_model_weights : String)
    (ocr_load_ok : Bool) (ocr : OCRInferenceM) : Except String PipelineState :=
  let det := if line_model_path = "" then none
    else some { can_run := line_load_ok, seg := seg }
  if ocr_model_weights = "" then
    .ok { line_detector := det, ocr_model := none, can_run := true,
          exporters := [] }
  else if ocr_load_ok then
    .ok { line_detector := det, ocr_model := some ocr, can_run := true,
          exporters := [] }
  else
    .error "OSError: unable to load OCR model weights"

/-- The `if "xml"/"text"/"prodigy" in output_formats` exporter
resolution of `InferencePipeline.run`. -/
def resolveExporters (output_formats : List String) : List ExporterKind :=
  (if "xml" ∈ output_formats then [ExporterKind.xml] else []) ++
    (if "text" ∈ output_formats then [ExporterKind.text] else []) ++
      (if "prodigy" ∈ output_formats then [ExporterKind.prodigy] else [])

/-- `for exporter in self.exporters: exporter.export(...)`. -/
def exporterEvents (exps : List ExporterKind) (image_name : String)
    (texts : List PredElem) : List Ev :=
  exps.map (fun e => Ev.exporterCall e image_name texts)

/-- One iteration of the page loop of `InferencePipeline.run`. -/
def pageStep (st : PipelineState) (mode output_encoding : String)
    (write_control_image : Bool) (toUni : String → String)
    (img : Nat) (image_name : String) : List Ev × Option String :=
  match st.line_detector with
  | none => ([], some "AttributeError: NoneType has no attribute run")
  | some d =>
    match d.run img with
    | none => ([], some "TypeError: cannot unpack non-iterable NoneType")
    | some out =>
      if out.lines.length = 0 then ([], none)
      else
        let ctrl : List Ev :=
          if write_control_image then [Ev.controlImage image_name] else []
        match st.ocr_model with
        | none =>
          (ctrl, some "AttributeError: NoneType has no attribute run_batched")
        | some m =>
          if mode = "batched" then
            let texts := m.run_batched out.lines
            let texts := if output_encoding = "unicode" then texts.map toUni
              else texts
            (ctrl ++ exporterEvents st.exporters image_name
              (texts.map PredElem.txt), none)
          else
            if output_encoding = "unicode" then
              (ctrl, some "TypeError: toUnicode expects a string, got a tuple")
            else
              (ctrl ++ exporterEvents st.exporters image_name
                (out.lines.map (fun l =>
                  PredElem.pair (m.decode l) (m.probs l))), none)

/-- The page loop: pages processed in order, an uncaught exception
aborts the remainder. -/
def runPages (st : PipelineState) (mode output_encoding : String)
    (write_control_image : Bool) (toUni : String → String) :
    List (Nat × String) → List Ev × Option String
  | [] => ([], none)
  | (img, name) :: rest =>
    match pageStep st mode output_encoding write_control_image toUni
        img name with
    | (evs, some e) => (evs, some e)
    | (evs, none) =>
      let r := runPages st mode output_encoding write_control_image toUni rest
      (evs ++ r.1, r.2)

/-- `InferencePipeline.run`: the empty-directory early return precedes
exporter resolution; recognized formats are appended to the persistent
exporter list; then the page loop runs. -/
def runPipeline (st : PipelineState) (images : List (Nat × String))
    (output_formats : List String) (mode output_encoding : String)
    (write_control_image : Bool) (toUni : String → String) :
    PipelineState × List Ev × Option String :=
  if images.length = 0 then (st, [], none)
  else
    let st' := { st with
      exporters := st.exporters ++ resolveExporters output_formats }
    let r := runPages st' mode output_encoding write_control_image toUni images
    (st', r.1, r.2)

/-- Number of exporter invocations among a list of events. -/
def exporterCallCount (evs : List Ev) : Nat :=
  (evs.filter (fun e => match e with
    | Ev.exporterCall _ _ _ => true
    | _ => false)).length

/-- The format string each exporter kind is resolved from. -/
def exporterFormatName : ExporterKind → String
  | ExporterKind.xml => "xml"
  | ExporterKind.text => "text"
  | ExporterKind.prodigy => "prodigy"

/-- A working one-line segmenter for concrete pipeline runs. -/
def demoDetector : LineDetectorM :=
  { can_run := true,
    seg := fun _ => { lines := [5], mask := 0, bbox := "0,0 8,0 8,4 0,4",
                      boxes := [9] } }

/-- A decoder whose greedy decode of any line image is "ka". -/
def demoOCR : OCRInferenceM := { decode := fun _ => "ka", probs := fun _ => 7 }

/-- A freshly constructed pipeline with both models loaded. -/
def demoState : PipelineState :=
  { line_detector := some demoDetector, ocr_model := some demoOCR,
    can_run := true, exporters := [] }

/-- A `LineDetector` whose segmentation model failed to load. -/
def failedDetector : LineDetectorM :=
  { can_run := false,
    seg := fun _ => { lines := [5], mask := 0, bbox := "", boxes := [] } }

/-- A pipeline whose segmentation model failed to load. -/
def disabledState : PipelineState :=
  { line_detector := some failedDetector, ocr_model := some demoOCR,
    can_run := true, exporters := [] }

theorem exporterCallCount_append (a b : List Ev) :
    exporterCallCount (a ++ b) = exporterCallCount a + exporterCallCount b := by
  simp [exporterCallCount, List.filter_append]

theorem exporterCallCount_events (exps : List ExporterKind)
    (name : String) (texts : List PredElem) :
    exporterCallCount (exporterEvents exps name texts) = exps.length := by
  induction exps with
  | nil => rfl
  | cons e t ih =>
    simp only [exporterEvents, List.map_cons] at *
    simp [exporterCallCount, List.filter_cons] at *
    exact ih

theorem exporterCallCount_ctrl (b : Bool) (name : String) :
    exporterCallCount (if b then [Ev.controlImage name] else []) = 0 := by
  cases b <;> rfl

/-- C1 (code-bug demonstration): with one page holding one detected
line and `output_encoding = "wylie"`, batched mode hands the exporter
the decoded string while sequential mode hands it the
`(text, prediction)` tuple that `OCRInference.run` returns — the two
modes do not pass the same list of decoded text strings to the
exporters, and the sequential element is a pair, not a text string
(with the default `output_encoding = "unicode"`, sequential mode
instead crashes passing the tuple to `toUnicode`). -/
theorem sequential_batched_disagree :
    (runPipeline demoState [(1, "page1")] ["text"] "batched" "wylie"
        false id).2.1 =
      [Ev.exporterCall ExporterKind.text "page1" [PredElem.txt "ka"]] ∧
    (runPipeline demoState [(1, "page1")] ["text"] "sequential" "wylie"
        false id).2.1 =
      [Ev.exporterCall ExporterKind.text "page1" [PredElem.pair "ka" 7]] ∧
    (runPipeline demoState [(1, "page1")] ["text"] "sequential" "wylie"
        false id).2.1 ≠
      (runPipeline demoState [(1, "page1")] ["text"] "batched" "wylie"
        false id).2.1 := by
  refine ⟨rfl, rfl, by decide⟩

/-- C2: a segmentation model that failed to load leaves the detector
with `can_run = False`; any later `InferencePipeline.run` call emits no
events at all — no page result and no exporter invocation — and aborts
loudly with an exception as soon as there is a page to process; and an
OCR model that fails to load makes pipeline construction itself raise,
so no pipeline object (and hence no `run` call) exists. -/
theorem disabled_component_refuses_to_run (st : PipelineState)
    (d : LineDetectorM) (images : List (Nat × String))
    (formats : List String) (mode enc : String) (wc : Bool)
    (tu : String → String) (hdet : st.line_detector = some d)
    (hcr : d.can_run = false) :
    ((runPipeline st images formats mode enc wc tu).2.1 = [] ∧
      (images ≠ [] →
        (runPipeline st images formats mode enc wc tu).2.2.isSome = true)) ∧
    (∀ (lp : String) (llo : Bool) (seg : Nat → DetectOut) (op : String)
        (ocr : OCRInferenceM), op ≠ "" →
      pipelineInit lp llo seg op false ocr =
        .error "OSError: unable to load OCR model weights") := by
  have hps : ∀ (st' : PipelineState), st'.line_detector = some d →
      ∀ img name, pageStep st' mode enc wc tu img name =
        ([], some "TypeError: cannot unpack non-iterable NoneType") := by
    intro st' h img name
    simp [pageStep, h, LineDetectorM.run, hcr]
  constructor
  · cases images with
    | nil => simp [runPipeline]
    | cons p rest =>
      obtain ⟨img, name⟩ := p
      have hrun : runPipeline st ((img, name) :: rest) formats mode enc wc tu =
          ({ st with exporters := st.exporters ++ resolveExporters formats },
            [], some "TypeError: cannot unpack non-iterable NoneType") := by
        simp only [runPipeline, List.length_cons, if_neg (Nat.succ_ne_zero _)]
        simp only [runPages,
          hps { st with
            exporters := st.exporters ++ resolveExporters formats } hdet
            img name]
      rw [hrun]
      exact ⟨rfl, fun _ => rfl⟩
  · intro lp llo seg op ocr hop
    simp [pipelineInit, hop]

/-- C2 witness: a pipeline whose line detector failed to load emits no
events and raises on a one-page run, and a failing OCR-weight load
aborts construction. -/
theorem disabled_component_refuses_to_run_witness :
    ((runPipeline disabledState [(0, "p")] ["text"] "batched" "unicode"
        true id).2.1 = [] ∧
      (runPipeline disabledState [(0, "p")] ["text"] "batched" "unicode"
        true id).2.2.isSome = true) ∧
    pipelineInit "line.onnx" true (fun _ => ⟨[], 0, "", []⟩) "weights.h5"
        false demoOCR =
      .error "OSError: unable to load OCR model weights" :=
  have h := disabled_component_refuses_to_run disabledState failedDetector
    [(0, "p")] ["text"] "batched" "unicode" true id (by rfl) (by rfl)
  ⟨⟨h.1.1, h.1.2 (by simp)⟩,
    h.2 "line.onnx" true (fun _ => ⟨[], 0, "", []⟩) "weights.h5" demoOCR
      (by simp)⟩

/-- C5 counterexample: running the same fresh pipeline twice with the
same format list `["text"]` on the same one-line page invokes the text
exporter once per page in the first run but twice per page in the
second run — `run` appends to the persistent `self.exporters` list
instead of resolving it fresh. -/
theorem second_run_doubles_exporter_calls :
    exporterCallCount
      ((runPipeline demoState [(1, "p")] ["text"] "batched" "wylie"
        false id).2.1) = 1 ∧
    exporterCallCount
      ((runPipeline
        (runPipeline demoState [(1, "p")] ["text"] "batched" "wylie"
          false id).1
        [(1, "p")] ["text"] "batched" "wylie" false id).2.1) = 2 := by
  exact ⟨rfl, rfl⟩

/-- C5 (amended): each non-empty `run` appends one exporter per
recognized format of the requested list ("xml", "text", "prodigy";
unrecognized strings silently ignored, duplicates in the list counted
once) to the pipeline's *persistent* exporter list, and every page
exported in a run is handed to every exporter accumulated in that
list — so a fresh pipeline's first run invokes each recognized
format's exporter once per page, while later runs invoke the
accumulated duplicates as well. -/
theorem exporters_accumulate_across_runs :
    (∀ (st : PipelineState) (images : List (Nat × String))
        (formats : List String) (mode enc : String) (wc : Bool)
        (tu : String → String), images ≠ [] →
      (runPipeline st images formats mode enc wc tu).1.exporters =
        st.exporters ++ resolveExporters formats) ∧
    (∀ (formats : List String) (k : ExporterKind),
      (resolveExporters formats).count k =
        if exporterFormatName k ∈ formats then 1 else 0) ∧
    (∀ (st : PipelineState) (enc : String) (wc : Bool)
        (tu : String → String) (img : Nat) (name : String)
        (d : LineDetectorM) (m : OCRInferenceM),
      st.line_detector = some d → d.can_run = true →
      st.ocr_model = some m → (d.seg img).lines ≠ [] →
      exporterCallCount
          (pageStep st "batched" enc wc tu img name).1 =
        st.exporters.length) := by
  refine ⟨?_, ?_, ?_⟩
  · intro st images formats mode enc wc tu himg
    have hlen : images.length ≠ 0 := by
      simpa [List.length_eq_zero] using himg
    simp only [runPipeline, if_neg hlen]
  · intro formats k
    cases k <;>
      by_cases h1 : "xml" ∈ formats <;>
      by_cases h2 : "text" ∈ formats <;>
      by_cases h3 : "prodigy" ∈ formats <;>
      simp [resolveExporters, exporterFormatName, h1, h2, h3,
        List.count_append, List.count_cons, List.count_nil]
  · intro st enc wc tu img name d m hdet hcr hocr hlines
    have hne : ¬((d.seg img).lines.length = 0) := by
      simpa [List.length_eq_zero] using hlines
    simp only [pageStep, hdet, LineDetectorM.run, hcr, if_pos rfl,
      if_neg hne, hocr, if_pos rfl, if_true]
    rw [exporterCallCount_append, exporterCallCount_ctrl,
      exporterCallCount_events]
    omega

/-- C5 amended witness: a fresh one-format run accumulates exactly the
text exporter, `resolveExporters` counts each recognized format once,
and a successful batched page invokes each accumulated exporter once. -/
theorem exporters_accumulate_across_runs_witness :
    (runPipeline demoState [(1, "p")] ["text", "bogus"] "batched" "wylie"
        false id).1.exporters = [ExporterKind.text] ∧
    (resolveExporters ["text", "bogus"]).count ExporterKind.xml = 0 ∧
    exporterCallCount
        (pageStep { demoState with exporters := [ExporterKind.text] }
          "batched" "wylie" false id 1 "p").1 = 1 :=
  have h := exporters_accumulate_across_runs
  ⟨by rw [h.1 demoState [(1, "p")] ["text", "bogus"] "batched" "wylie"
        false id (by simp)]; rfl,
    by rw [h.2.1 ["text", "bogus"] ExporterKind.xml]; rfl,
    by rw [h.2.2 { demoState with exporters := [ExporterKind.text] }
        "wylie" false id 1 "p" demoDetector demoOCR (by rfl) (by rfl)
        (by rfl) (by decide)]; rfl⟩

/-- C8: a page whose segmentation yields zero line images contributes
no events at all — no exporter call and no control image even when
control images were requested — and the loop continues with the
remaining pages exactly as if the page were absent. -/
theorem zero_line_page_skipped (st : PipelineState) (mode enc : String)
    (wc : Bool) (tu : String → String) (img : Nat) (name : String)
    (rest : List (Nat × String)) (d : LineDetectorM)
    (hdet : st.line_detector = some d) (hcr : d.can_run = true)
    (hempty : (d.seg img).lines = []) :
    runPages st mode enc wc tu ((img, name) :: rest) =
      runPages st mode enc wc tu rest := by
  have hps : pageStep st mode enc wc tu img name = ([], none) := by
    simp [pageStep, hdet, LineDetectorM.run, hcr, hempty]
  simp only [runPages, hps]
  simp

/-- A segmenter finding no lines on page 1 and one line elsewhere. -/
def emptyPageDetector : LineDetectorM :=
  { can_run := true,
    seg := fun i =>
      if i = 1 then { lines := [], mask := 0, bbox := "", boxes := [] }
      else { lines := [6], mask := 0, bbox := "", boxes := [] } }

/-- A pipeline state with a registered text exporter and the
no-lines-on-page-1 segmenter. -/
def emptyPageState : PipelineState :=
  { line_detector := some emptyPageDetector, ocr_model := some demoOCR,
    can_run := true, exporters := [ExporterKind.text] }

/-- C8 witness: with control images requested and a text exporter
registered, the zero-line page 1 is skipped and processing of page 2
is exactly that of a run without page 1. -/
theorem zero_line_page_skipped_witness :
    runPages emptyPageState "batched" "wylie" true id
        [(1, "page1"), (2, "page2")] =
      runPages emptyPageState "batched" "wylie" true id [(2, "page2")] :=
  zero_line_page_skipped emptyPageState "batched" "wylie" true id 1 "page1"
    [(2, "page2")] emptyPageDetector (by rfl) (by rfl) (by rfl)
